import Mathlib

/-!
# Agent control protocol client — verification of the spec against the code

The repository holds two Python driver scripts (`src/etc/test-agent.py`,
`src/etc/test-handoff.py`) that launch a long-running agent process and
exchange newline-delimited JSON messages with it over its stdin/stdout
pipes, plus an out-of-scope documentation generator.

This file shallowly embeds:

* the scripts' `send` helper and the `main` control flow (Part A), and
* the hardened `Session` / `LineProtocolClient` / `HandoffCoordinator`
  design that the specification describes as a redesign of the scripts;
  that design exists only in the specification, so it is modelled from
  the spec's words (Part B, definitions marked `Modelled from the spec:`).

Machine-level details we do not model: wall-clock time (timeouts are
modelled as an environment-supplied bit saying whether the awaited line
arrived within the budget), the operating system's process table, and
console printing by the test scripts themselves.
-/

namespace Karate

/-! ## JSON values

A JSON value as handled by Python's `json` module, restricted to the
integer subset of JSON numbers (the protocol messages in the repository
carry only strings, integers, objects and arrays; floats never occur). -/

inductive Json where
  | null : Json
  | bool (b : Bool) : Json
  | num (n : Int) : Json
  | str (s : String) : Json
  | arr (xs : List Json) : Json
  | obj (kvs : List (String × Json)) : Json
  deriving Repr, BEq

/-! ## `json.dumps` string escaping

Embeds CPython's `json.dumps` serialization of a `str` value with the
default options (`ensure_ascii=True`): `"` and `\` are backslash-escaped,
the control characters BS HT LF FF CR get their short escapes, every
other character outside printable ASCII `0x20..0x7e` becomes a lowercase
`\uXXXX` escape (a surrogate pair when the code point exceeds `0xffff`),
and printable ASCII characters stand for themselves. -/

def hexDigit (n : Nat) : Char :=
  if n < 10 then Char.ofNat (48 + n) else Char.ofNat (87 + n)

def toHex4 (n : Nat) : List Char :=
  [hexDigit (n / 4096 % 16), hexDigit (n / 256 % 16),
   hexDigit (n / 16 % 16), hexDigit (n % 16)]

def uEscape (n : Nat) : List Char :=
  if n < 65536 then
    '\\' :: 'u' :: toHex4 n
  else
    let m := n - 65536
    ('\\' :: 'u' :: toHex4 (55296 + m / 1024)) ++ ('\\' :: 'u' :: toHex4 (56320 + m % 1024))

def pyEscapeChar (c : Char) : List Char :=
  if c = '"' then ['\\', '"']
  else if c = '\\' then ['\\', '\\']
  else if c = '\x08' then ['\\', 'b']
  else if c = '\t' then ['\\', 't']
  else if c = '\n' then ['\\', 'n']
  else if c = '\x0c' then ['\\', 'f']
  else if c = '\r' then ['\\', 'r']
  else if c.toNat < 32 ∨ 126 < c.toNat then uEscape c.toNat
  else [c]

/-- `json.dumps` applied to a Python `str`: the quoted, escaped form. -/
def encodeJsonString (s : String) : String :=
  ⟨'"' :: (s.data.flatMap pyEscapeChar) ++ ['"']⟩

/-! ## The request the scripts build

Both scripts' `send` run
`msg = json.dumps({"command": "eval", "payload": js_code})`:
the request dictionary always carries command tag `"eval"` and the
caller's instruction string as payload (dict insertion order preserved),
and `json.dumps` renders it with the default `", "` and `": "`
separators. -/

def request (js_code : String) : List (String × Json) :=
  [("command", Json.str "eval"), ("payload", Json.str js_code)]

/-- `json.dumps({"command": "eval", "payload": js_code})` of the scripts,
rendered exactly as CPython does with default separators. -/
def dumpsRequest (js_code : String) : String :=
  "\x7b\"command\": \"eval\", \"payload\": " ++ encodeJsonString js_code ++ "\x7d"

/-! ## `json.loads`

Embeds CPython's `json.loads` on the same integer subset of JSON:
whitespace is ` `, TAB, LF, CR; strings accept the two-character escapes,
`\uXXXX` (with surrogate-pair combination) and any raw character of code
point at least `0x20`; numbers are integers with no leading zeros
(decimal points and exponents, which `json.loads` would read as floats,
are rejected — no message in the repository carries them); objects and
arrays recurse. A failed parse is `none`, where `json.loads` raises
`json.JSONDecodeError`. Duplicate object keys are kept in order rather
than last-wins; no message in the repository has duplicate keys. -/

def skipWs : List Char → List Char
  | [] => []
  | c :: cs =>
    if c = ' ' ∨ c = '\t' ∨ c = '\n' ∨ c = '\r' then skipWs cs else c :: cs

def hexVal (c : Char) : Option Nat :=
  if '0' ≤ c ∧ c ≤ '9' then some (c.toNat - 48)
  else if 'a' ≤ c ∧ c ≤ 'f' then some (c.toNat - 87)
  else if 'A' ≤ c ∧ c ≤ 'F' then some (c.toNat - 55)
  else none

def parse4Hex (cs : List Char) : Option (Nat × List Char) :=
  match cs with
  | a :: b :: c :: d :: rest =>
    match hexVal a, hexVal b, hexVal c, hexVal d with
    | some x, some y, some z, some w => some (((x * 16 + y) * 16 + z) * 16 + w, rest)
    | _, _, _, _ => none
  | _ => none

def isDigit (c : Char) : Bool := '0' ≤ c ∧ c ≤ '9'

def digitsAux : List Char → Nat → Nat × List Char
  | [], acc => (acc, [])
  | c :: cs, acc =>
    if isDigit c then digitsAux cs (acc * 10 + (c.toNat - 48)) else (acc, c :: cs)

/-- Integer literal: optional minus, then `0` alone or a nonzero digit
followed by digits; a following `.`, `e` or `E` (a float in real JSON)
is rejected as outside the modelled subset. -/
def parseIntLit (cs : List Char) : Option (Int × List Char) :=
  let core : List Char → Option (Nat × List Char) := fun ds =>
    match ds with
    | [] => none
    | c :: rest =>
      if c = '0' then
        if rest.head? = some '.' ∨ rest.head? = some 'e' ∨ rest.head? = some 'E' then none
        else if (rest.head?.map isDigit).getD false then none
        else some (0, rest)
      else if isDigit c then
        let (n, rem) := digitsAux (c :: rest) 0
        if rem.head? = some '.' ∨ rem.head? = some 'e' ∨ rem.head? = some 'E' then none
        else some (n, rem)
      else none
  match cs with
  | '-' :: rest => (core rest).map (fun p => (-(p.1 : Int), p.2))
  | _ => (core cs).map (fun p => ((p.1 : Int), p.2))

def parseStringBody : Nat → List Char → Option (List Char × List Char)
  | 0, _ => none
  | _, [] => none
  | fuel + 1, c :: cs =>
    if c = '"' then some ([], cs)
    else if c = '\\' then
      match cs with
      | [] => none
      | e :: cs1 =>
        let cont : Char → List Char → Option (List Char × List Char) := fun d rest =>
          (parseStringBody fuel rest).map (fun p => (d :: p.1, p.2))
        if e = '"' then cont '"' cs1
        else if e = '\\' then cont '\\' cs1
        else if e = '/' then cont '/' cs1
        else if e = 'b' then cont '\x08' cs1
        else if e = 'f' then cont '\x0c' cs1
        else if e = 'n' then cont '\n' cs1
        else if e = 'r' then cont '\r' cs1
        else if e = 't' then cont '\t' cs1
        else if e = 'u' then
          match parse4Hex cs1 with
          | none => none
          | some (n, cs2) =>
            if 55296 ≤ n ∧ n ≤ 56319 then
              match cs2 with
              | '\\' :: 'u' :: cs3 =>
                match parse4Hex cs3 with
                | some (m, cs4) =>
                  if 56320 ≤ m ∧ m ≤ 57343 then
                    cont (Char.ofNat (65536 + (n - 55296) * 1024 + (m - 56320))) cs4
                  else cont (Char.ofNat n) cs2
                | none => cont (Char.ofNat n) cs2
              | _ => cont (Char.ofNat n) cs2
            else cont (Char.ofNat n) cs2
        else none
    else if c.toNat < 32 then none
    else (parseStringBody fuel cs).map (fun p => (c :: p.1, p.2))

mutual

def parseValue : Nat → List Char → Option (Json × List Char)
  | 0, _ => none
  | fuel + 1, cs =>
    match skipWs cs with
    | [] => none
    | c :: rest =>
      if c = '"' then
        (parseStringBody (rest.length + 1) rest).map (fun p => (Json.str ⟨p.1⟩, p.2))
      else if c.toNat = 123 then
        match skipWs rest with
        | d :: rest1 =>
          if d.toNat = 125 then some (Json.obj [], rest1)
          else (parseMembers fuel (d :: rest1)).map (fun p => (Json.obj p.1, p.2))
        | [] => none
      else if c = '[' then
        match skipWs rest with
        | d :: rest1 =>
          if d = ']' then some (Json.arr [], rest1)
          else (parseElems fuel (d :: rest1)).map (fun p => (Json.arr p.1, p.2))
        | [] => none
      else if c = 't' then
        match rest with
        | 'r' :: 'u' :: 'e' :: rest1 => some (Json.bool true, rest1)
        | _ => none
      else if c = 'f' then
        match rest with
        | 'a' :: 'l' :: 's' :: 'e' :: rest1 => some (Json.bool false, rest1)
        | _ => none
      else if c = 'n' then
        match rest with
        | 'u' :: 'l' :: 'l' :: rest1 => some (Json.null, rest1)
        | _ => none
      else
        (parseIntLit (c :: rest)).map (fun p => (Json.num p.1, p.2))

def parseMembers : Nat → List Char → Option (List (String × Json) × List Char)
  | 0, _ => none
  | fuel + 1, cs =>
    match skipWs cs with
    | '"' :: rest =>
      match parseStringBody (rest.length + 1) rest with
      | none => none
      | some (key, rest1) =>
        match skipWs rest1 with
        | ':' :: rest2 =>
          match parseValue fuel rest2 with
          | none => none
          | some (v, rest3) =>
            match skipWs rest3 with
            | ',' :: rest4 =>
              (parseMembers fuel rest4).map (fun p => ((⟨key⟩, v) :: p.1, p.2))
            | d :: rest4 =>
              if d.toNat = 125 then some ([(⟨key⟩, v)], rest4) else none
            | [] => none
        | _ => none
    | _ => none

def parseElems : Nat → List Char → Option (List Json × List Char)
  | 0, _ => none
  | fuel + 1, cs =>
    match parseValue fuel cs with
    | none => none
    | some (v, rest) =>
      match skipWs rest with
      | ',' :: rest1 => (parseElems fuel rest1).map (fun p => (v :: p.1, p.2))
      | ']' :: rest1 => some ([v], rest1)
      | _ => none

end

/-- `json.loads`: parse one value and require only whitespace after it. -/
def loads (s : String) : Option Json :=
  match parseValue (s.length + 1) s.data with
  | some (j, rest) => if skipWs rest = [] then some j else none
  | none => none

/-! ## The scripts' process handle and `send`

The `subprocess.Popen` handle as the scripts use it: text-mode stdin
pipe (a write buffer plus the flushed chunks, in order, that the child
has seen), a closed flag, and the child's stdout modelled as the list of
lines still unread (`readline` at end-of-stream returns the empty
string). Console printing by the scripts is not modelled. -/

structure Proc where
  stdinBuf : String
  stdinFlushed : List String
  stdinClosed : Bool
  stdoutLines : List String
  deriving Repr

def writeStdin (p : Proc) (s : String) : Proc :=
  { p with stdinBuf := p.stdinBuf ++ s }

def flushStdin (p : Proc) : Proc :=
  { p with stdinBuf := "", stdinFlushed := p.stdinFlushed ++ [p.stdinBuf] }

def readlineStdout (p : Proc) : String × Proc :=
  match p.stdoutLines with
  | [] => ("", p)
  | l :: rest => (l, { p with stdoutLines := rest })

/-- Embeds `send(proc, js_code)` of `src/etc/test-agent.py` lines 8-17
(textually identical in `src/etc/test-handoff.py` lines 7-15): build
`msg = json.dumps({"command": "eval", "payload": js_code})`, write
`msg + "\n"`, flush, read one line, `json.loads` it. A parse failure is
the propagated `json.JSONDecodeError`, carrying the offending line. -/
def scriptSend (p : Proc) (js_code : String) : Except String Json × Proc :=
  let msg := dumpsRequest js_code
  let p1 := flushStdin (writeStdin p (msg ++ "\n"))
  let (response, p2) := readlineStdout p1
  match loads response with
  | some result => (Except.ok result, p2)
  | none => (Except.error response, p2)

/-! ## The scripts' `main` control flow

Both `main` functions launch the process, read the readiness line, and
then run the sends inside `try: ... except Exception as e: ...
finally: proc.stdin.close(); proc.wait()`. For the resource-release
claim only the skeleton matters, so the try-body is abstracted as an
arbitrary action trace plus an optional exception — this covers every
outcome of the sends (JSON decode failures, broken pipes, and the
conditional act/click branches of test-agent.py alike). -/

inductive Act where
  | step (s : String) : Act
  | printedTraceback : Act
  | closedStdin : Act
  | waited : Act
  deriving Repr, DecidableEq

/-- Embeds the post-readiness control flow of `main` in both scripts:
the try-body's actions, then — when the body raised — the `except`
clause's error printing, then the `finally` clause, which closes the
child's stdin and waits for the process on every path. -/
def mainRun (bodyActs : List Act) (exn : Option String) : List Act :=
  bodyActs ++
    (match exn with
     | none => []
     | some _ => [Act.printedTraceback]) ++
    [Act.closedStdin, Act.waited]

/-- Single-quote character, written via its code point. -/
def sq : String := String.singleton (Char.ofNat 39)

/-- Embeds the handoff request of `src/etc/test-handoff.py` line 43:
the instruction string passed to `send`, i.e. the handoff is issued as
`agent.handoff('Please click the Resume button to continue')` through
the ordinary eval-tagged `send`, not as a distinct command tag. -/
def handoffCall : String :=
  "agent.handoff(" ++ sq ++ "Please click the Resume button to continue" ++ sq ++ ")"

/-- Generic `json.dumps` with the default `", "` and `": "` separators
and `ensure_ascii=True`, over the modelled `Json` values. -/
def dumps : Json → String
  | Json.null => "null"
  | Json.bool true => "true"
  | Json.bool false => "false"
  | Json.num n => toString n
  | Json.str s => encodeJsonString s
  | Json.arr xs =>
    "[" ++ String.intercalate ", " (xs.attach.map (fun x => dumps x.1)) ++ "]"
  | Json.obj kvs =>
    "\x7b" ++
      String.intercalate ", "
        (kvs.attach.map (fun kv => encodeJsonString kv.1.1 ++ ": " ++ dumps kv.1.2)) ++
      "\x7d"
decreasing_by
  · simp_wf
    have := List.sizeOf_lt_of_mem x.2
    omega
  · obtain ⟨⟨a, b⟩, hmem⟩ := kv
    have := List.sizeOf_lt_of_mem hmem
    simp_wf
    simp [Prod.mk.sizeOf_spec] at this
    omega

/-! ## Part B: the hardened Session design

The specification (sections 2-7) describes `ProcessSupervisor`,
`LineProtocolClient`, `HandoffCoordinator` and the `Session` façade as a
redesign of the scripts; no implementation of that design is under
`src/`, so the definitions below are modelled from the spec's words.

Wall-clock time is not shallowly embeddable, so each potentially
blocking operation takes a Boolean supplied by the environment saying
whether the awaited data arrived within the relevant budget
(`arrives` for `awaitReady`, `maxWaitExceeded` for `requestHandoff`,
`exitsInGrace` for `stop`). What the child writes on its stdout is an
oracle `Nat → ReadEvent` indexed by how many reads have been performed;
`ReadEvent.closed` is end-of-stream (the child exited or the pipe
closed). -/

inductive SessionError where
  | launchError : SessionError
  | readinessTimeout : SessionError
  | protocolError (raw : String) : SessionError
  | slotOccupied : SessionError
  | handoffTimeout : SessionError
  | processTerminated : SessionError
  deriving Repr, DecidableEq

inductive Phase where
  | notReady : Phase
  | running : Phase
  | terminated : Phase
  deriving Repr, DecidableEq

inductive ReadEvent where
  | line (s : String) : ReadEvent
  | closed : ReadEvent
  deriving Repr

/-- Modelled from the spec: a `CommandRequest` is a value with a
`command` tag and an opaque structured `payload`. -/
structure CommandRequest where
  command : String
  payload : Json

/-- Modelled from the spec: the `Session` aggregate — the process's
phase, the single in-flight request slot, the flag that an abandoned
handoff read may still deliver a stray response line, the lines written
(flushed) to the child's stdin, the input-pipe state, and the child's
stdout as an oracle with a count of reads performed so far. -/
structure Session where
  phase : Phase
  inflight : Bool
  stray : Bool
  written : List String
  stdinClosed : Bool
  oracle : Nat → ReadEvent
  reads : Nat

/-- Serialization of a request by the modelled `LineProtocolClient`:
one line of text containing the structured (JSON) encoding of `command`
and `payload`, exactly as `json.dumps` renders it. -/
def requestLine (req : CommandRequest) : String :=
  "\x7b\"command\": " ++ encodeJsonString req.command ++ ", \"payload\": " ++ dumps req.payload ++ "\x7d"

/-- Modelled from the spec: `awaitReady(timeout)` of `ProcessSupervisor`
(missing from `src/`) — blocks until exactly one line has been read from
the output pipe or the timeout elapses; `ReadinessTimeout` if no signal
arrives in time, `ProcessTerminated` if the process exits before
signaling readiness; the line's content is not validated. -/
def awaitReady (arrives : Bool) (s : Session) : Except SessionError Unit × Session :=
  if s.phase = Phase.terminated then (Except.error SessionError.processTerminated, s)
  else if arrives then
    match s.oracle s.reads with
    | ReadEvent.closed =>
      (Except.error SessionError.processTerminated,
        { s with phase := Phase.terminated, reads := s.reads + 1 })
    | ReadEvent.line _ =>
      (Except.ok (), { s with phase := Phase.running, reads := s.reads + 1 })
  else (Except.error SessionError.readinessTimeout, s)

/-- Modelled from the spec: the write-and-occupy half of
`LineProtocolClient.send` (missing from `src/`) — fails `SlotOccupied`
if a prior request's response has not been consumed (never silently
queued) and as a precondition failure before readiness; discards a
stray late response line from an abandoned handoff before sending;
otherwise writes the serialized line plus terminator (flushed) and
occupies the slot. -/
def beginSend (req : CommandRequest) (s : Session) : Except SessionError Unit × Session :=
  if s.phase = Phase.terminated then (Except.error SessionError.processTerminated, s)
  else if s.phase = Phase.notReady then (Except.error SessionError.slotOccupied, s)
  else if s.inflight then (Except.error SessionError.slotOccupied, s)
  else if s.stray then
    match s.oracle s.reads with
    | ReadEvent.closed =>
      (Except.error SessionError.processTerminated,
        { s with phase := Phase.terminated, reads := s.reads + 1, stray := false })
    | ReadEvent.line _ =>
      (Except.ok (),
        { s with reads := s.reads + 1, stray := false,
                 written := s.written ++ [requestLine req ++ "\n"], inflight := true })
  else
    (Except.ok (), { s with written := s.written ++ [requestLine req ++ "\n"], inflight := true })

/-- Modelled from the spec: the read half of `LineProtocolClient.send`
(missing from `src/`) — exactly one blocking read of the next line; a
well-formed line is returned and the slot released; an unparseable line
is consumed and yields `ProtocolError` with the raw bytes, slot
released; end-of-stream yields `ProcessTerminated` and the session is
terminated. Calling it with no request in flight is a contract
violation surfaced as `SlotOccupied`. -/
def awaitResponse (s : Session) : Except SessionError Json × Session :=
  if s.phase = Phase.terminated then (Except.error SessionError.processTerminated, s)
  else if s.inflight then
    match s.oracle s.reads with
    | ReadEvent.closed =>
      (Except.error SessionError.processTerminated,
        { s with phase := Phase.terminated, reads := s.reads + 1, inflight := false })
    | ReadEvent.line l =>
      match loads l with
      | some j => (Except.ok j, { s with reads := s.reads + 1, inflight := false })
      | none =>
        (Except.error (SessionError.protocolError l),
          { s with reads := s.reads + 1, inflight := false })
  else (Except.error SessionError.slotOccupied, s)

/-- Modelled from the spec: `LineProtocolClient.send` (missing from
`src/`) — serialize, write, flush, then one blocking read. -/
def send (req : CommandRequest) (s : Session) : Except SessionError Json × Session :=
  match beginSend req s with
  | (Except.ok _, s1) => awaitResponse s1
  | (Except.error e, s1) => (Except.error e, s1)

/-- Modelled from the spec: `HandoffCoordinator.requestHandoff`
(missing from `src/`) — issues a handoff-class request through the
client; if `maxWait` is exceeded the read is abandoned (the pending
response line is not consumed and may later arrive as a stray), the
slot is forced back to empty, and the call fails `HandoffTimeout`. -/
def requestHandoff (message : String) (maxWaitExceeded : Bool) (s : Session) :
    Except SessionError Json × Session :=
  match beginSend { command := "handoff", payload := Json.str message } s with
  | (Except.error e, s1) => (Except.error e, s1)
  | (Except.ok _, s1) =>
    if maxWaitExceeded then
      (Except.error SessionError.handoffTimeout, { s1 with inflight := false, stray := true })
    else awaitResponse s1

inductive StopAct where
  | closedInput : StopAct
  | waitedGrace : StopAct
  | forcedKill : StopAct
  deriving Repr, DecidableEq

/-- Modelled from the spec: `ProcessSupervisor.stop(gracePeriod)`
(missing from `src/`) — closes the input pipe, waits up to the grace
period for natural exit, forcibly terminates otherwise; a no-op on an
already-terminated process. Returns the trace of lifecycle actions
taken, in order. -/
def stop (exitsInGrace : Bool) (s : Session) : List StopAct × Session :=
  if s.phase = Phase.terminated then ([], s)
  else
    ([StopAct.closedInput, StopAct.waitedGrace] ++
       (if exitsInGrace then [] else [StopAct.forcedKill]),
     { s with stdinClosed := true, phase := Phase.terminated })

/-! ## Helper lemmas: every character `json.dumps` emits is printable ASCII -/

theorem hexDigit_ascii : ∀ m, m < 16 → 32 ≤ (hexDigit m).toNat ∧ (hexDigit m).toNat ≤ 126 := by
  decide

theorem toHex4_ascii (n : Nat) : ∀ c ∈ toHex4 n, 32 ≤ c.toNat ∧ c.toNat ≤ 126 := by
  intro c hc
  simp only [toHex4, List.mem_cons, List.not_mem_nil, or_false] at hc
  rcases hc with h | h | h | h <;> subst h <;>
    exact hexDigit_ascii _ (Nat.mod_lt _ (by norm_num))

theorem uEscape_ascii (n : Nat) : ∀ c ∈ uEscape n, 32 ≤ c.toNat ∧ c.toNat ≤ 126 := by
  intro c hc
  unfold uEscape at hc
  split at hc
  · simp only [List.mem_cons] at hc
    rcases hc with h | h | h
    · subst h; decide
    · subst h; decide
    · exact toHex4_ascii _ c h
  · simp only [List.append_assoc, List.cons_append, List.nil_append, List.mem_cons,
      List.mem_append] at hc
    rcases hc with h | h | h | h | h | h
    · subst h; decide
    · subst h; decide
    · exact toHex4_ascii _ c h
    · subst h; decide
    · subst h; decide
    · exact toHex4_ascii _ c h

theorem pyEscapeChar_ascii (c : Char) : ∀ d ∈ pyEscapeChar c, 32 ≤ d.toNat ∧ d.toNat ≤ 126 := by
  intro d hd
  unfold pyEscapeChar at hd
  split_ifs at hd with h1 h2 h3 h4 h5 h6 h7 h8
  · simp only [List.mem_cons, List.not_mem_nil, or_false] at hd
    rcases hd with h | h <;> subst h <;> decide
  · simp only [List.mem_cons, List.not_mem_nil, or_false] at hd
    rcases hd with h | h <;> subst h <;> decide
  · simp only [List.mem_cons, List.not_mem_nil, or_false] at hd
    rcases hd with h | h <;> subst h <;> decide
  · simp only [List.mem_cons, List.not_mem_nil, or_false] at hd
    rcases hd with h | h <;> subst h <;> decide
  · simp only [List.mem_cons, List.not_mem_nil, or_false] at hd
    rcases hd with h | h <;> subst h <;> decide
  · simp only [List.mem_cons, List.not_mem_nil, or_false] at hd
    rcases hd with h | h <;> subst h <;> decide
  · simp only [List.mem_cons, List.not_mem_nil, or_false] at hd
    rcases hd with h | h <;> subst h <;> decide
  · exact uEscape_ascii _ d hd
  · simp only [List.mem_cons, List.not_mem_nil, or_false] at hd
    subst hd
    push_neg at h8
    omega

theorem encodeJsonString_ascii (s : String) :
    ∀ c ∈ (encodeJsonString s).data, 32 ≤ c.toNat ∧ c.toNat ≤ 126 := by
  intro c hc
  simp only [encodeJsonString, List.mem_cons, List.mem_append, List.mem_flatMap,
    List.not_mem_nil, or_false] at hc
  rcases hc with (h | ⟨a, _, h⟩) | h
  · subst h; decide
  · exact pyEscapeChar_ascii a c h
  · subst h; decide

theorem dumpsRequest_ascii (js_code : String) :
    ∀ c ∈ (dumpsRequest js_code).data, 32 ≤ c.toNat ∧ c.toNat ≤ 126 := by
  have hlit1 : ∀ d ∈ ("\x7b\"command\": \"eval\", \"payload\": " : String).data,
      32 ≤ d.toNat ∧ d.toNat ≤ 126 := by decide
  have hlit2 : ∀ d ∈ ("\x7d" : String).data, 32 ≤ d.toNat ∧ d.toNat ≤ 126 := by decide
  intro c hc
  simp only [dumpsRequest, String.data_append, List.mem_append] at hc
  rcases hc with (h | h) | h
  · exact hlit1 c h
  · exact encodeJsonString_ascii _ c h
  · exact hlit2 c h

/-! ## Claim theorems, Part A (decided by the code under `src/`) -/

/-- C1: for every request, `send` serializes it to exactly one line of
UTF-8 text structurally encoding the command tag and the payload (the
serialized line has no embedded newline), writes that line followed by
a line terminator and flushes immediately (the write buffer is left
empty and the full line is delivered to the child), then performs
exactly one blocking read of the next line from the output pipe and
returns that line's parse as the response. -/
theorem send_one_line_one_read (p : Proc) (js_code : String) (l : String)
    (rest : List String) (hbuf : p.stdinBuf = "") (hout : p.stdoutLines = l :: rest) :
    (scriptSend p js_code).2.stdinFlushed = p.stdinFlushed ++ [dumpsRequest js_code ++ "\n"] ∧
    (scriptSend p js_code).2.stdinBuf = "" ∧
    (scriptSend p js_code).2.stdoutLines = rest ∧
    (∀ c ∈ (dumpsRequest js_code).data, c ≠ '\n') ∧
    (scriptSend p js_code).1 =
      (match loads l with
       | some j => Except.ok j
       | none => Except.error l) := by
  have hnl : ∀ c ∈ (dumpsRequest js_code).data, c ≠ '\n' := by
    intro c hc heq
    have h := dumpsRequest_ascii js_code c hc
    subst heq
    revert h
    decide
  cases hl : loads l <;>
    refine ⟨?_, ?_, ?_, hnl, ?_⟩ <;>
      simp [scriptSend, writeStdin, flushStdin, readlineStdout, hbuf, hout, hl]

/-- C1 witness: the theorem applied to a concrete idle handle holding
one response line. -/
theorem send_one_line_one_read_witness :
    (Proc.mk "" [] false ["2"]).stdinBuf = "" ∧
    (Proc.mk "" [] false ["2"]).stdoutLines = "2" :: [] ∧
    (scriptSend (Proc.mk "" [] false ["2"]) "agent.look()").2.stdinFlushed =
      (Proc.mk "" [] false ["2"]).stdinFlushed ++ [dumpsRequest "agent.look()" ++ "\n"] ∧
    (scriptSend (Proc.mk "" [] false ["2"]) "agent.look()").2.stdinBuf = "" ∧
    (scriptSend (Proc.mk "" [] false ["2"]) "agent.look()").2.stdoutLines = [] ∧
    ('a' ∈ (dumpsRequest "agent.look()").data → 'a' ≠ '\n') ∧
    (scriptSend (Proc.mk "" [] false ["2"]) "agent.look()").1 =
      (match loads "2" with
       | some j => Except.ok j
       | none => Except.error "2") := by
  have h := send_one_line_one_read (Proc.mk "" [] false ["2"]) "agent.look()" "2" [] rfl rfl
  exact ⟨rfl, rfl, h.1, h.2.1, h.2.2.1, fun hm => h.2.2.2.1 'a' hm, h.2.2.2.2⟩

/-- C8: for every payload value, including strings containing line
terminators, the serialized request line has no literal embedded line
terminator: the `json.dumps` encoding escapes them. -/
theorem serialized_request_single_line (payload : String) :
    ∀ c ∈ (dumpsRequest payload).data, c ≠ '\n' ∧ c ≠ '\r' := by
  intro c hc
  have h := dumpsRequest_ascii payload c hc
  constructor <;> rintro rfl <;> revert h <;> decide

/-- C8 witness: the theorem applied to a payload that embeds both line
terminators. -/
theorem serialized_request_single_line_witness :
    'a' ∈ (dumpsRequest "a\n\rb").data ∧ ('a' ≠ '\n' ∧ 'a' ≠ '\r') :=
  ⟨by decide, serialized_request_single_line "a\n\rb" 'a' (by decide)⟩

/-- C9: once the process is launched and readiness awaited, every exit
path of the driver — normal completion or an exception raised during
any send — ends by closing the child's stdin and then waiting for the
process: those two actions are a suffix of the whole trace. -/
theorem main_releases_process (bodyActs : List Act) (exn : Option String) :
    List.IsSuffix [Act.closedStdin, Act.waited] (mainRun bodyActs exn) :=
  ⟨bodyActs ++
    (match exn with
     | none => []
     | some _ => [Act.printedTraceback]),
   by simp [mainRun]⟩

/-- C10: every request the scripts write to the agent carries the
command tag `"eval"` — `send` builds the request dict with command
`"eval"` for every payload and writes exactly its serialization — and
the handoff of test-handoff.py is transported as an eval of an
`agent.handoff(...)` instruction string, not as a distinct `"handoff"`
command tag. -/
theorem requests_always_tagged_eval (p : Proc) (js_code : String) :
    (request js_code).lookup "command" = some (Json.str "eval") ∧
    (scriptSend p js_code).2.stdinFlushed =
      p.stdinFlushed ++ [p.stdinBuf ++ dumpsRequest js_code ++ "\n"] ∧
    request handoffCall =
      [("command", Json.str "eval"), ("payload", Json.str handoffCall)] := by
  refine ⟨rfl, ?_, rfl⟩
  cases hout : p.stdoutLines with
  | nil =>
    cases hl : loads "" <;>
      simp [scriptSend, writeStdin, flushStdin, readlineStdout, hout, hl,
        String.append_assoc]
  | cons l rest =>
    cases hl : loads l <;>
      simp [scriptSend, writeStdin, flushStdin, readlineStdout, hout, hl,
        String.append_assoc]

/-! ## Claim theorems, Part B (the spec-modelled Session design)

Concrete sessions used to witness the theorems below. -/

def okOracle : Nat → ReadEvent := fun _ => ReadEvent.line "2"

def badThenGoodOracle : Nat → ReadEvent :=
  fun n => if n = 0 then ReadEvent.line "oops" else ReadEvent.line "2"

def closedOracle : Nat → ReadEvent := fun _ => ReadEvent.closed

def sessionIdle : Session := ⟨Phase.running, false, false, [], false, badThenGoodOracle, 0⟩

def sessionOk : Session := ⟨Phase.running, false, false, [], false, okOracle, 0⟩

def sessionClosing : Session := ⟨Phase.running, false, false, [], false, closedOracle, 0⟩

def sessionDead : Session := ⟨Phase.terminated, false, false, [], false, closedOracle, 0⟩

def sessionBoot : Session := ⟨Phase.notReady, false, false, [], false, okOracle, 0⟩

def reqEval : CommandRequest := ⟨"eval", Json.str "agent.look()"⟩

/-- C2: a response line that cannot be parsed fails the send with
`ProtocolError` carrying the raw line, the in-flight slot is released
(the malformed line is consumed, never left pending), and a subsequent
well-formed send on the same Session succeeds. -/
theorem protocol_error_recoverable (s : Session) (req req2 : CommandRequest)
    (bad good : String) (j : Json)
    (hphase : s.phase = Phase.running) (hfree : s.inflight = false)
    (hstray : s.stray = false)
    (h0 : s.oracle s.reads = ReadEvent.line bad) (hbad : loads bad = none)
    (h1 : s.oracle (s.reads + 1) = ReadEvent.line good) (hgood : loads good = some j) :
    (send req s).1 = Except.error (SessionError.protocolError bad) ∧
    (send req s).2.inflight = false ∧
    (send req s).2.reads = s.reads + 1 ∧
    (send req2 (send req s).2).1 = Except.ok j := by
  simp [send, beginSend, awaitResponse, hphase, hfree, hstray, h0, hbad, h1, hgood]

/-- C2 witness: a session whose first response line is garbage and
whose second parses, exercised with a concrete request. -/
theorem protocol_error_recoverable_witness :
    (sessionIdle.phase = Phase.running ∧ sessionIdle.inflight = false ∧
      sessionIdle.stray = false ∧
      sessionIdle.oracle sessionIdle.reads = ReadEvent.line "oops" ∧
      loads "oops" = none ∧
      sessionIdle.oracle (sessionIdle.reads + 1) = ReadEvent.line "2" ∧
      loads "2" = some (Json.num 2)) ∧
    (send reqEval sessionIdle).1 = Except.error (SessionError.protocolError "oops") ∧
    (send reqEval sessionIdle).2.inflight = false ∧
    (send reqEval sessionIdle).2.reads = sessionIdle.reads + 1 ∧
    (send reqEval (send reqEval sessionIdle).2).1 = Except.ok (Json.num 2) :=
  ⟨⟨rfl, rfl, rfl, rfl, rfl, rfl, rfl⟩,
   protocol_error_recoverable sessionIdle reqEval reqEval "oops" "2" (Json.num 2)
     rfl rfl rfl rfl rfl rfl rfl⟩

/-- C3: a handoff whose `maxWait` is exceeded fails `HandoffTimeout`,
the slot is forced back to empty with the pending response line left
unconsumed, and the next send on the same Session first detects and
discards that stray late line and then returns its own response — the
stray is never returned as the new request's answer. -/
theorem handoff_timeout_stray_discarded (s : Session) (msg : String) (req : CommandRequest)
    (strayL goodL : String) (j : Json)
    (hphase : s.phase = Phase.running) (hfree : s.inflight = false)
    (hstray : s.stray = false)
    (h0 : s.oracle s.reads = ReadEvent.line strayL)
    (h1 : s.oracle (s.reads + 1) = ReadEvent.line goodL)
    (hgood : loads goodL = some j) :
    (requestHandoff msg true s).1 = Except.error SessionError.handoffTimeout ∧
    (requestHandoff msg true s).2.inflight = false ∧
    (requestHandoff msg true s).2.stray = true ∧
    (requestHandoff msg true s).2.reads = s.reads ∧
    (send req (requestHandoff msg true s).2).1 = Except.ok j ∧
    (send req (requestHandoff msg true s).2).2.reads = s.reads + 2 := by
  simp [requestHandoff, send, beginSend, awaitResponse, hphase, hfree, hstray, h0, h1, hgood]

/-- C3 witness: a timed-out handoff on a concrete session followed by a
send that discards the stray "oops" line and returns the parse of the
next line. -/
theorem handoff_timeout_stray_discarded_witness :
    (sessionIdle.phase = Phase.running ∧ sessionIdle.inflight = false ∧
      sessionIdle.stray = false ∧
      sessionIdle.oracle sessionIdle.reads = ReadEvent.line "oops" ∧
      sessionIdle.oracle (sessionIdle.reads + 1) = ReadEvent.line "2" ∧
      loads "2" = some (Json.num 2)) ∧
    (requestHandoff "resume" true sessionIdle).1 = Except.error SessionError.handoffTimeout ∧
    (requestHandoff "resume" true sessionIdle).2.inflight = false ∧
    (requestHandoff "resume" true sessionIdle).2.stray = true ∧
    (requestHandoff "resume" true sessionIdle).2.reads = sessionIdle.reads ∧
    (send reqEval (requestHandoff "resume" true sessionIdle).2).1 = Except.ok (Json.num 2) ∧
    (send reqEval (requestHandoff "resume" true sessionIdle).2).2.reads =
      sessionIdle.reads + 2 :=
  ⟨⟨rfl, rfl, rfl, rfl, rfl, rfl⟩,
   handoff_timeout_stray_discarded sessionIdle "resume" reqEval "oops" "2" (Json.num 2)
     rfl rfl rfl rfl rfl rfl⟩

/-- C4: a second send issued before the first's response has been
consumed fails with `SlotOccupied` and leaves the session state exactly
unchanged (never silently queued), while the first request's response
is still delivered correctly once awaited. -/
theorem second_send_slot_occupied (s : Session) (req1 req2 : CommandRequest)
    (l : String) (j : Json)
    (hphase : s.phase = Phase.running) (hfree : s.inflight = false)
    (hstray : s.stray = false)
    (h0 : s.oracle s.reads = ReadEvent.line l) (hl : loads l = some j) :
    (beginSend req1 s).1 = Except.ok () ∧
    (beginSend req2 (beginSend req1 s).2).1 = Except.error SessionError.slotOccupied ∧
    (beginSend req2 (beginSend req1 s).2).2 = (beginSend req1 s).2 ∧
    (awaitResponse (beginSend req1 s).2).1 = Except.ok j := by
  simp [beginSend, awaitResponse, hphase, hfree, hstray, h0, hl]

/-- C4 witness: two sends on a concrete session, the second refused
while the first is outstanding, the first's response then delivered. -/
theorem second_send_slot_occupied_witness :
    (sessionOk.phase = Phase.running ∧ sessionOk.inflight = false ∧
      sessionOk.stray = false ∧
      sessionOk.oracle sessionOk.reads = ReadEvent.line "2" ∧
      loads "2" = some (Json.num 2)) ∧
    (beginSend reqEval sessionOk).1 = Except.ok () ∧
    (beginSend reqEval (beginSend reqEval sessionOk).2).1 =
      Except.error SessionError.slotOccupied ∧
    (beginSend reqEval (beginSend reqEval sessionOk).2).2 = (beginSend reqEval sessionOk).2 ∧
    (awaitResponse (beginSend reqEval sessionOk).2).1 = Except.ok (Json.num 2) :=
  ⟨⟨rfl, rfl, rfl, rfl, rfl⟩,
   second_send_slot_occupied sessionOk reqEval reqEval "2" (Json.num 2)
     rfl rfl rfl rfl rfl⟩

/-- C5: if the child exits or the pipes close while a send is pending,
that send fails with `ProcessTerminated`, and on a terminated Session
every subsequent operation fails immediately with `ProcessTerminated`
with the state exactly unchanged — no further I/O is attempted. -/
theorem process_terminated_latches (s t : Session) (req req2 : CommandRequest)
    (msg : String) (arrives mw : Bool)
    (hphase : s.phase = Phase.running) (hfree : s.inflight = false)
    (hstray : s.stray = false)
    (h0 : s.oracle s.reads = ReadEvent.closed)
    (hterm : t.phase = Phase.terminated) :
    (send req s).1 = Except.error SessionError.processTerminated ∧
    (send req s).2.phase = Phase.terminated ∧
    send req2 t = (Except.error SessionError.processTerminated, t) ∧
    awaitReady arrives t = (Except.error SessionError.processTerminated, t) ∧
    requestHandoff msg mw t = (Except.error SessionError.processTerminated, t) ∧
    awaitResponse t = (Except.error SessionError.processTerminated, t) := by
  simp [send, beginSend, awaitResponse, awaitReady, requestHandoff,
    hphase, hfree, hstray, h0, hterm]

/-- C5 witness: a pending send against a closing pipe, then each
operation refused on the resulting terminated session. -/
theorem process_terminated_latches_witness :
    (sessionClosing.phase = Phase.running ∧ sessionClosing.inflight = false ∧
      sessionClosing.stray = false ∧
      sessionClosing.oracle sessionClosing.reads = ReadEvent.closed ∧
      sessionDead.phase = Phase.terminated) ∧
    (send reqEval sessionClosing).1 = Except.error SessionError.processTerminated ∧
    (send reqEval sessionClosing).2.phase = Phase.terminated ∧
    send reqEval sessionDead = (Except.error SessionError.processTerminated, sessionDead) ∧
    awaitReady true sessionDead = (Except.error SessionError.processTerminated, sessionDead) ∧
    requestHandoff "resume" false sessionDead =
      (Except.error SessionError.processTerminated, sessionDead) ∧
    awaitResponse sessionDead = (Except.error SessionError.processTerminated, sessionDead) :=
  ⟨⟨rfl, rfl, rfl, rfl, rfl⟩,
   process_terminated_latches sessionClosing sessionDead reqEval reqEval "resume" true false
     rfl rfl rfl rfl rfl⟩

/-- C6: `awaitReady` performs exactly one read of the output pipe
(content not validated) and sends nothing itself; a request attempted
before readiness fails with a usage error and writes nothing; it fails
`ReadinessTimeout` if no line arrives within the timeout and
`ProcessTerminated` if the process exits before the readiness line. -/
theorem awaitReady_reads_one_line (s : Session) (req : CommandRequest) (l : String)
    (hphase : s.phase = Phase.notReady) :
    (s.oracle s.reads = ReadEvent.line l →
      awaitReady true s =
        (Except.ok (), { s with phase := Phase.running, reads := s.reads + 1 })) ∧
    (awaitReady false s).1 = Except.error SessionError.readinessTimeout ∧
    (s.oracle s.reads = ReadEvent.closed →
      (awaitReady true s).1 = Except.error SessionError.processTerminated ∧
      (awaitReady true s).2.phase = Phase.terminated) ∧
    (beginSend req s).1 = Except.error SessionError.slotOccupied ∧
    (beginSend req s).2.written = s.written := by
  refine ⟨?_, ?_, ?_, ?_, ?_⟩ <;> intros <;> simp [awaitReady, beginSend, hphase, *]

/-- C6 witness: readiness awaited on a concrete freshly-started session
whose child emits one line; a pre-readiness send is refused. -/
theorem awaitReady_reads_one_line_witness :
    sessionBoot.phase = Phase.notReady ∧
    sessionBoot.oracle sessionBoot.reads = ReadEvent.line "2" ∧
    awaitReady true sessionBoot =
      (Except.ok (),
        { sessionBoot with phase := Phase.running, reads := sessionBoot.reads + 1 }) ∧
    (awaitReady false sessionBoot).1 = Except.error SessionError.readinessTimeout ∧
    (beginSend reqEval sessionBoot).1 = Except.error SessionError.slotOccupied ∧
    (beginSend reqEval sessionBoot).2.written = sessionBoot.written :=
  have h := awaitReady_reads_one_line sessionBoot reqEval "2" rfl
  ⟨rfl, rfl, h.1 rfl, h.2.1, h.2.2.2.1, h.2.2.2.2⟩

/-- C7: `stop` first closes the input pipe, then waits the grace period
and forcibly terminates the process exactly when it has not exited in
time (the action trace is close, wait, then kill only on grace
expiry); calling `stop` on an already-terminated process is a no-op. -/
theorem stop_close_then_wait_idempotent (s : Session) :
    (s.phase = Phase.terminated → stop true s = ([], s) ∧ stop false s = ([], s)) ∧
    (s.phase ≠ Phase.terminated →
      stop true s = ([StopAct.closedInput, StopAct.waitedGrace],
        { s with stdinClosed := true, phase := Phase.terminated }) ∧
      stop false s = ([StopAct.closedInput, StopAct.waitedGrace, StopAct.forcedKill],
        { s with stdinClosed := true, phase := Phase.terminated })) := by
  constructor <;> intro h <;> simp [stop, h]

/-- C7 witness: stopping a live concrete session with and without
timely exit, and stopping an already-terminated one. -/
theorem stop_close_then_wait_idempotent_witness :
    stop true sessionDead = ([], sessionDead) ∧
    stop false sessionDead = ([], sessionDead) ∧
    stop true sessionOk = ([StopAct.closedInput, StopAct.waitedGrace],
      { sessionOk with stdinClosed := true, phase := Phase.terminated }) ∧
    stop false sessionOk = ([StopAct.closedInput, StopAct.waitedGrace, StopAct.forcedKill],
      { sessionOk with stdinClosed := true, phase := Phase.terminated }) :=
  have hd := (stop_close_then_wait_idempotent sessionDead).1 rfl
  have ho := (stop_close_then_wait_idempotent sessionOk).2 (by decide)
  ⟨hd.1, hd.2, ho.1, ho.2⟩

end Karate
